import Mathlib

/-!
Verification development for the simple-video-player configuration core:
the DSN parser, the multi-backend database facade and adapters, the
configuration service, and the token / device-fingerprint logic.

Machine integers do not occur in the modelled code paths; all arithmetic is
on `Nat`.  JavaScript promise rejections and thrown exceptions are modelled
as explicit error outcomes (`Option` / `Except` / dedicated constructors).
-/

namespace SVP

/-! ## Generic helpers: JS-style string splitting and parsing -/

/-- Auxiliary splitter: returns (first segment, remaining segments) of
splitting a character list on a separator, mirroring JavaScript
`String.prototype.split` with a single-character separator. -/
def splitAux (sep : Char) : List Char → List Char × List (List Char)
  | [] => ([], [])
  | c :: rest =>
    let r := splitAux sep rest
    if c = sep then ([], r.1 :: r.2) else (c :: r.1, r.2)

/-- JavaScript `str.split(sep)` for a single-character separator: always a
nonempty list of segments. -/
def splitOnChar (sep : Char) (l : List Char) : List (List Char) :=
  (splitAux sep l).1 :: (splitAux sep l).2

/-- Whether `pat` occurs at the head of `l`. -/
def startsWith : List Char → List Char → Bool
  | [], _ => true
  | _ :: _, [] => false
  | c :: p, x :: s => x = c && startsWith p s

/-- JavaScript `str.replace(pat, '')` with a plain-string pattern: removes
the first occurrence of `pat`, if any. -/
def replaceFirst (pat : List Char) : List Char → List Char
  | [] => []
  | c :: rest =>
    if startsWith pat (c :: rest) then (c :: rest).drop pat.length
    else c :: replaceFirst pat rest

/-- Value of a decimal digit list, most significant first. -/
def digitsToNat (l : List Char) : Nat :=
  l.foldl (fun a c => a * 10 + (c.toNat - 48)) 0

/-- JavaScript `parseInt` restricted to the shapes that occur here: reads the
leading run of decimal digits; `none` models `NaN` (no leading digit). -/
def jsParseInt (l : List Char) : Option Nat :=
  let ds := l.takeWhile Char.isDigit
  if ds.isEmpty then none else some (digitsToNat ds)

/-- Lowercase hexadecimal digit character for a value below 16. -/
def hexDigitChar (n : Nat) : Char :=
  if n < 10 then Char.ofNat (48 + n) else Char.ofNat (87 + n)

/-- Value of a hexadecimal digit character. -/
def hexVal (c : Char) : Option Nat :=
  if '0' ≤ c ∧ c ≤ '9' then some (c.toNat - 48)
  else if 'a' ≤ c ∧ c ≤ 'f' then some (c.toNat - 87)
  else if 'A' ≤ c ∧ c ≤ 'F' then some (c.toNat - 55)
  else none

/-! ## UTF-8 encoding (Node `Buffer.from(string)`) -/

/-- UTF-8 byte sequence of one character. -/
def utf8EncodeChar (c : Char) : List Nat :=
  if c.toNat < 128 then [c.toNat]
  else if c.toNat < 2048 then [192 + c.toNat / 64, 128 + c.toNat % 64]
  else if c.toNat < 65536 then
    [224 + c.toNat / 4096, 128 + c.toNat / 64 % 64, 128 + c.toNat % 64]
  else
    [240 + c.toNat / 262144, 128 + c.toNat / 4096 % 64,
      128 + c.toNat / 64 % 64, 128 + c.toNat % 64]

/-- UTF-8 byte sequence of a character list. -/
def utf8Encode (l : List Char) : List Nat :=
  (l.map utf8EncodeChar).flatten

/-- Whether a byte is a UTF-8 continuation byte. -/
def utf8Cont (b : Nat) : Bool :=
  128 ≤ b && b < 192

/-- Decode of the tail of a two-byte UTF-8 sequence with lead byte `b`. -/
def utf8Step2 (b : Nat) : List Nat → Option (Char × List Nat)
  | b1 :: rest =>
    if utf8Cont b1 then some (Char.ofNat ((b - 192) * 64 + (b1 - 128)), rest) else none
  | [] => none

/-- Decode of the tail of a three-byte UTF-8 sequence with lead byte `b`. -/
def utf8Step3 (b : Nat) : List Nat → Option (Char × List Nat)
  | b1 :: b2 :: rest =>
    if utf8Cont b1 && utf8Cont b2 then
      some (Char.ofNat ((b - 224) * 4096 + (b1 - 128) * 64 + (b2 - 128)), rest)
    else none
  | _ => none

/-- Decode of the tail of a four-byte UTF-8 sequence with lead byte `b`. -/
def utf8Step4 (b : Nat) : List Nat → Option (Char × List Nat)
  | b1 :: b2 :: b3 :: rest =>
    if utf8Cont b1 && utf8Cont b2 && utf8Cont b3 then
      some (Char.ofNat
        ((b - 240) * 262144 + (b1 - 128) * 4096 + (b2 - 128) * 64 + (b3 - 128)), rest)
    else none
  | _ => none

/-- Decode of one UTF-8 character from the head of a byte list. -/
def utf8DecodeStep : List Nat → Option (Char × List Nat)
  | [] => none
  | b :: rest =>
    if b < 128 then some (Char.ofNat b, rest)
    else if b < 224 then utf8Step2 b rest
    else if b < 240 then utf8Step3 b rest
    else utf8Step4 b rest

/-- Fueled UTF-8 decoding loop. -/
def utf8DecodeGo : Nat → List Nat → Option (List Char)
  | _, [] => some []
  | 0, _ :: _ => none
  | Nat.succ fuel, b :: rest =>
    match utf8DecodeStep (b :: rest) with
    | some cr => (utf8DecodeGo fuel cr.2).map (fun t => cr.1 :: t)
    | none => none

/-- UTF-8 decoder, used only as a left inverse of `utf8Encode` to establish
injectivity of the fingerprint encoding. -/
def utf8Decode (bs : List Nat) : Option (List Char) :=
  utf8DecodeGo bs.length bs

/-! ## Base64 encoding (Node `buffer.toString('base64')`) -/

/-- Character of the standard Base64 alphabet for a sextet value. -/
def b64Char (n : Nat) : Char :=
  if n < 26 then Char.ofNat (65 + n)
  else if n < 52 then Char.ofNat (97 + (n - 26))
  else if n < 62 then Char.ofNat (48 + (n - 52))
  else if n = 62 then '+' else '/'

/-- Sextet value of a Base64 alphabet character. -/
def b64Val (c : Char) : Option Nat :=
  if 'A' ≤ c ∧ c ≤ 'Z' then some (c.toNat - 65)
  else if 'a' ≤ c ∧ c ≤ 'z' then some (c.toNat - 97 + 26)
  else if '0' ≤ c ∧ c ≤ '9' then some (c.toNat - 48 + 52)
  else if c = '+' then some 62
  else if c = '/' then some 63
  else none

/-- Standard Base64 encoding of a byte list, with `=` padding. -/
def base64Encode : List Nat → List Char
  | [] => []
  | [a] => [b64Char (a / 4), b64Char (a % 4 * 16), '=', '=']
  | [a, b] => [b64Char (a / 4), b64Char (a % 4 * 16 + b / 16), b64Char (b % 16 * 4), '=']
  | a :: b :: c :: rest =>
    b64Char (a / 4) :: b64Char (a % 4 * 16 + b / 16) ::
      b64Char (b % 16 * 4 + c / 64) :: b64Char (c % 64) :: base64Encode rest

/-- Base64 decoder, used only as a left inverse of `base64Encode`. -/
def base64Decode : List Char → Option (List Nat)
  | [] => some []
  | w :: x :: y :: z :: rest =>
    match b64Val w, b64Val x with
    | some a, some b =>
      if y = '=' ∧ z = '=' ∧ rest = [] then
        some [a * 4 + b / 16]
      else if z = '=' ∧ rest = [] then
        match b64Val y with
        | some c => some [a * 4 + b / 16, b % 16 * 16 + c / 4]
        | none => none
      else
        match b64Val y, b64Val z with
        | some c, some d =>
          (base64Decode rest).map
            (fun t => (a * 4 + b / 16) :: (b % 16 * 16 + c / 4) :: (c % 4 * 64 + d) :: t)
        | _, _ => none
    | _, _ => none
  | _ => none

/-- Node `Buffer.from(s).toString('base64')` on a string. -/
def b64String (s : String) : String :=
  ⟨base64Encode (utf8Encode s.data)⟩

/-- Triple Base64 encoding from the config handler (`encodeBase64`,
part_002 lines 17-23): three rounds of `Buffer.from(x).toString('base64')`. -/
def encodeBase64 (s : String) : String :=
  b64String (b64String (b64String s))

/-! ## JSON serialization of the device fingerprint object

`generateDeviceFingerprint` (part_001 lines 148-171) builds a fixed-shape
object of string fields and returns `Buffer.from(JSON.stringify(obj)).toString('base64')`.
We serialize exactly the shape `JSON.stringify` produces for that object
literal (insertion-ordered keys, strings escaped as `JSON.stringify` does:
quote, backslash, and control characters only). -/

/-- Escape of one character inside a JSON string literal, as produced by
`JSON.stringify`. -/
def escChar (c : Char) : List Char :=
  if c = '"' then ['\\', '"']
  else if c = '\\' then ['\\', '\\']
  else if c = Char.ofNat 8 then ['\\', 'b']
  else if c = Char.ofNat 9 then ['\\', 't']
  else if c = Char.ofNat 10 then ['\\', 'n']
  else if c = Char.ofNat 12 then ['\\', 'f']
  else if c = Char.ofNat 13 then ['\\', 'r']
  else if c.toNat < 32 then
    ['\\', 'u', '0', '0', hexDigitChar (c.toNat / 16), hexDigitChar (c.toNat % 16)]
  else [c]

/-- Escape of a whole string body (without the surrounding quotes). -/
def escStr (l : List Char) : List Char :=
  (l.map escChar).flatten

/-- The nine string components of the device fingerprint, in the order the
source object literal lists them (part_001 lines 149-166). -/
structure FpInput where
  userAgent : String
  acceptLanguage : String
  acceptEncoding : String
  ip : String
  platform : String
  mobile : String
  secFetchSite : String
  secFetchMode : String
  secFetchDest : String
deriving DecidableEq, Repr

/-- Label before the `userAgent` value in the serialized fingerprint. -/
def labUA : List Char := "\x7b\"userAgent\":\"".data

/-- Label between the `userAgent` and `acceptLanguage` values. -/
def labAL : List Char := ",\"acceptLanguage\":\"".data

/-- Label before the `acceptEncoding` value. -/
def labAE : List Char := ",\"acceptEncoding\":\"".data

/-- Label before the `ip` value. -/
def labIP : List Char := ",\"ip\":\"".data

/-- Label before the `platform` value. -/
def labPL : List Char := ",\"platform\":\"".data

/-- Label before the `mobile` value. -/
def labMO : List Char := ",\"mobile\":\"".data

/-- Label opening the nested `secFetch` object before its `site` value. -/
def labSF : List Char := ",\"secFetch\":\x7b\"site\":\"".data

/-- Label before the `mode` value. -/
def labMD : List Char := ",\"mode\":\"".data

/-- Label before the `dest` value. -/
def labDS : List Char := ",\"dest\":\"".data

/-- Closing braces of the serialized fingerprint. -/
def labEnd : List Char := "\x7d\x7d".data

/-- Verbatim `JSON.stringify` output for the fingerprint object literal:
each field value is escaped and wrapped in quotes, between the fixed
labels above. -/
def fpJson (fp : FpInput) : List Char :=
  labUA ++ escStr fp.userAgent.data ++
  '"' :: labAL ++ escStr fp.acceptLanguage.data ++
  '"' :: labAE ++ escStr fp.acceptEncoding.data ++
  '"' :: labIP ++ escStr fp.ip.data ++
  '"' :: labPL ++ escStr fp.platform.data ++
  '"' :: labMO ++ escStr fp.mobile.data ++
  '"' :: labSF ++ escStr fp.secFetchSite.data ++
  '"' :: labMD ++ escStr fp.secFetchMode.data ++
  '"' :: labDS ++ escStr fp.secFetchDest.data ++
  '"' :: labEnd

/-- Consume an exact literal from the head of the input. -/
def parseLit : List Char → List Char → Option (List Char)
  | [], s => some s
  | _ :: _, [] => none
  | c :: p, x :: s => if x = c then parseLit p s else none

/-- Read an escaped JSON string body up to its closing quote, returning the
unescaped content and the rest of the input. Left inverse of `escStr`. -/
def scanStr : List Char → Option (List Char × List Char)
  | [] => none
  | '"' :: t => some ([], t)
  | '\\' :: rest =>
    match rest with
    | '"' :: t => (scanStr t).map (fun p => ('"' :: p.1, p.2))
    | '\\' :: t => (scanStr t).map (fun p => ('\\' :: p.1, p.2))
    | 'b' :: t => (scanStr t).map (fun p => (Char.ofNat 8 :: p.1, p.2))
    | 't' :: t => (scanStr t).map (fun p => (Char.ofNat 9 :: p.1, p.2))
    | 'n' :: t => (scanStr t).map (fun p => (Char.ofNat 10 :: p.1, p.2))
    | 'f' :: t => (scanStr t).map (fun p => (Char.ofNat 12 :: p.1, p.2))
    | 'r' :: t => (scanStr t).map (fun p => (Char.ofNat 13 :: p.1, p.2))
    | 'u' :: h1 :: h2 :: h3 :: h4 :: t =>
      match hexVal h1, hexVal h2, hexVal h3, hexVal h4 with
      | some a, some b, some c, some d =>
        (scanStr t).map
          (fun p => (Char.ofNat (a * 4096 + b * 256 + c * 16 + d) :: p.1, p.2))
      | _, _, _, _ => none
    | _ => none
  | c :: rest => (scanStr rest).map (fun p => (c :: p.1, p.2))

/-- Consume a literal label followed by an escaped string value ending at
its closing quote; returns the unescaped value and the rest. -/
def pField (lab : List Char) (s : List Char) : Option (List Char × List Char) :=
  (parseLit lab s).bind scanStr

/-- Structural parse of `fpJson` output; left inverse of `fpJson`, used to
prove the fingerprint encoding injective. -/
def parseFp (s : List Char) : Option FpInput :=
  (pField labUA s).bind fun p1 =>
  (pField labAL p1.2).bind fun p2 =>
  (pField labAE p2.2).bind fun p3 =>
  (pField labIP p3.2).bind fun p4 =>
  (pField labPL p4.2).bind fun p5 =>
  (pField labMO p5.2).bind fun p6 =>
  (pField labSF p6.2).bind fun p7 =>
  (pField labMD p7.2).bind fun p8 =>
  (pField labDS p8.2).bind fun p9 =>
  some ⟨⟨p1.1⟩, ⟨p2.1⟩, ⟨p3.1⟩, ⟨p4.1⟩, ⟨p5.1⟩, ⟨p6.1⟩, ⟨p7.1⟩, ⟨p8.1⟩, ⟨p9.1⟩⟩

/-! ## Requests, tokens, and verification (part_001 lines 148-217)

The JWT signature (HMAC under `JWT_SECRET`) is modelled symbolically: a
signature is the pair of the signing secret and the signed content, so that
a signature verifies under a secret exactly when it was produced with that
secret over that content.  `jwt.sign` with `expiresIn: '24h'` stamps
`exp = now + 86400` (seconds); `jwt.verify` rejects expired tokens and bad
signatures by throwing, which the code turns into `null`. -/

/-- Incoming request context: the header values read by
`generateDeviceFingerprint` (absent headers fall back to `'unknown'`), plus
Express `req.ip` and `req.connection.remoteAddress`. -/
structure Request where
  userAgent : Option String
  acceptLanguage : Option String
  acceptEncoding : Option String
  platform : Option String
  mobile : Option String
  secFetchSite : Option String
  secFetchMode : Option String
  secFetchDest : Option String
  ip : Option String
  remoteAddress : String
deriving DecidableEq, Repr

/-- JavaScript `req.headers[h] || 'unknown'`: an absent or empty header
value is replaced by the string `'unknown'`. -/
def headerD : Option String → String
  | none => "unknown"
  | some s => if s = "" then "unknown" else s

/-- JavaScript `req.ip || req.connection.remoteAddress`. -/
def reqIp (r : Request) : String :=
  match r.ip with
  | none => r.remoteAddress
  | some s => if s = "" then r.remoteAddress else s

/-- The fingerprint input assembled from a request (part_001 lines 149-166). -/
def fpOfReq (r : Request) : FpInput :=
  ⟨headerD r.userAgent, headerD r.acceptLanguage, headerD r.acceptEncoding,
   reqIp r, headerD r.platform, headerD r.mobile,
   headerD r.secFetchSite, headerD r.secFetchMode, headerD r.secFetchDest⟩

/-- Device fingerprint of a request:
`Buffer.from(JSON.stringify(fingerprint)).toString('base64')`. -/
def generateDeviceFingerprint (r : Request) : List Char :=
  base64Encode (utf8Encode (fpJson (fpOfReq r)))

/-- Payload embedded by `generateToken` (part_001 lines 174-187): role flag,
device fingerprint, issuance time (`Date.now()`, milliseconds), client IP. -/
structure TokenPayload where
  isAdmin : Bool
  deviceFingerprint : List Char
  iat : Nat
  ip : String
deriving DecidableEq, Repr

/-- A signed token: payload, expiry (seconds), and its symbolic signature. -/
structure SignedToken where
  payload : TokenPayload
  exp : Nat
  sig : String × TokenPayload × Nat
deriving DecidableEq, Repr

/-- Symbolic `jwt.sign(payload, secret, expiresIn 24h)`. -/
def jwtSign (p : TokenPayload) (secret : String) (nowSec : Nat) : SignedToken :=
  ⟨p, nowSec + 86400, (secret, p, nowSec + 86400)⟩

/-- Symbolic `jwt.verify(token, secret)` at time `nowSec`: `none` models the
throw on a bad signature or an expired token. -/
def jwtVerify (t : SignedToken) (secret : String) (nowSec : Nat) : Option TokenPayload :=
  if t.sig = (secret, t.payload, t.exp) ∧ nowSec < t.exp then some t.payload else none

/-- Token issuance `generateToken(isAdmin, req)` (part_001 lines 174-187);
`nowMs` is the `Date.now()` value stored as `iat`, `nowSec` the signing time
used for the 24-hour expiry. -/
def generateToken (isAdmin : Bool) (r : Request) (secret : String)
    (nowMs nowSec : Nat) : SignedToken :=
  jwtSign ⟨isAdmin, generateDeviceFingerprint r, nowMs, reqIp r⟩ secret nowSec

/-- Token verification `verifyToken(token, req)` (part_001 lines 190-217):
verify signature and expiry, recompute the fingerprint from the presenting
request, reject on mismatch; any failure yields `none` (`null`). -/
def verifyToken (t : SignedToken) (r : Request) (secret : String)
    (nowSec : Nat) : Option TokenPayload :=
  match jwtVerify t secret nowSec with
  | none => none
  | some decoded =>
    if decoded.deviceFingerprint ≠ generateDeviceFingerprint r then none
    else some decoded

/-! ## JSON values and JS objects

The configuration record travels as a JSON document.  JS objects are
modelled as insertion-ordered association lists of string keys.  Where the
source stores `JSON.stringify(v)` and reads it back through `JSON.parse`,
the model stores the value itself (the serialization round-trips). -/

/-- A JSON value. -/
inductive JsonVal where
  | null
  | bool (b : Bool)
  | num (n : Nat)
  | str (s : String)
  | arr (xs : List JsonVal)
  | obj (fields : List (String × JsonVal))
deriving Repr

/-- A JS object: ordered fields with string keys. -/
abbrev JsObj := List (String × JsonVal)

/-- First binding of a key, `undefined` as `none`. -/
def objLookup (o : JsObj) (k : String) : Option JsonVal :=
  (o.find? (fun p => p.1 == k)).map Prod.snd

/-- JavaScript property assignment `o[k] = v`: overwrite in place if the key
exists, else append. -/
def setKey (o : JsObj) (k : String) (v : JsonVal) : JsObj :=
  if o.any (fun p => p.1 == k) then
    o.map (fun p => if p.1 == k then (p.1, v) else p)
  else o ++ [(k, v)]

/-- JavaScript rest-destructuring `const \x7b k, ...rest \x7d = o`: the object
without the named key. -/
def removeKey (o : JsObj) (k : String) : JsObj :=
  o.filter (fun p => p.1 ≠ k)

/-- JavaScript truthiness of a JSON value. -/
def truthyJson : JsonVal → Bool
  | .null => false
  | .bool b => b
  | .num n => n ≠ 0
  | .str s => s ≠ ""
  | .arr _ => true
  | .obj _ => true

/-- JavaScript truthiness of a possibly-absent string (`if (!dsn)`). -/
def truthyOpt : Option String → Bool
  | none => false
  | some s => s ≠ ""

/-! ## Configuration handler (part_002)

`withConnection` runs a query against the MySQL pool; its possible
rejections (pool initialization failure, query failure) and the row list of
`SELECT config FROM configs ORDER BY id DESC LIMIT 1` are modelled by
`QueryOutcome`.  Rows carry the stored configuration object (the source
applies `JSON.parse` when the driver hands back a string). -/

/-- Outcome of the database read used by the config handler. -/
inductive QueryOutcome where
  | err
  | rows (l : List JsObj)

/-- Literal default configuration record (part_002 lines 4-12). -/
def defaultConfig : JsObj :=
  [("resourceSites", .arr []), ("parseApi", .str ""),
   ("backgroundImage", .str ""), ("enableLogin", .bool false),
   ("loginPassword", .str ""), ("announcement", .str ""),
   ("customTitle", .str "")]

/-- Configuration read `getConfig(dsn)` (part_002 lines 42-71): default when
no DSN, on error, or on an empty table; otherwise the stored record with a
truthy string password triple-Base64-encoded for transport.  (A truthy
non-string password reaches Node `Buffer.from`, whose behavior is
environment-specific; no theorem below depends on that branch, so it keeps
the record unchanged in the model.) -/
def getConfig (dsn : Option String) (db : QueryOutcome) : JsObj :=
  if truthyOpt dsn = false then defaultConfig
  else match db with
  | .err => defaultConfig
  | .rows [] => defaultConfig
  | .rows (row :: _) =>
    match objLookup row "loginPassword" with
    | some (.str s) =>
      if s ≠ "" then setKey row "loginPassword" (.str (encodeBase64 s)) else row
    | _ => row

/-- Public read `getPublicConfig(dsn)` (part_002 lines 115-119; identically
src/server/config-handler.js lines 228-232): the configuration with the
`loginPassword` field destructured away. -/
def getPublicConfig (dsn : Option String) (db : QueryOutcome) : JsObj :=
  removeKey (getConfig dsn db) "loginPassword"

/-- Password check `verifyPassword(password, dsn)` (part_002 lines 122-143):
`true` without a DSN; `false` when the read fails; `true` when the table is
empty; otherwise strict equality between the candidate and the stored
record's `loginPassword` (shallow `===`, false against a missing or
non-string field). -/
def verifyPassword (password : String) (dsn : Option String) (db : QueryOutcome) : Bool :=
  if truthyOpt dsn = false then true
  else match db with
  | .err => false
  | .rows [] => true
  | .rows (row :: _) =>
    match objLookup row "loginPassword" with
    | some (.str s) => password == s
    | _ => false

/-- A stored record with login disabled and password "p" (used to exercise
`verifyPassword` at a concrete input). -/
def cfgLoginDisabled : JsObj :=
  [("resourceSites", .arr []), ("parseApi", .str ""),
   ("backgroundImage", .str ""), ("enableLogin", .bool false),
   ("loginPassword", .str "p"), ("announcement", .str ""),
   ("customTitle", .str "")]

/-! ## DSN parser (src/src/utils/db.ts lines 12-30)

`parseDSN` destructures the results of JavaScript `split`; with no `'@'` in
the input the `rest` component is `undefined` and the subsequent
`rest.split('/')` throws, modelled by `none`. -/

/-- MySQL pool options produced by `parseDSN`.  `port` is `none` where
`parseInt` yields `NaN`; `password`/`database` are `none` where the
destructuring leaves them `undefined`. -/
structure PoolOptions where
  host : List Char
  port : Option Nat
  user : List Char
  password : Option (List Char)
  database : Option (List Char)
  waitForConnections : Bool
  connectionLimit : Nat
  maxIdle : Nat
  queueLimit : Nat
deriving DecidableEq, Repr

/-- Strip of the Go-style wrapper: `hostname.replace('tcp(', '').replace(')', '')`. -/
def stripHost (h : List Char) : List Char :=
  replaceFirst ")".data (replaceFirst "tcp(".data h)

/-- The DSN parser (src/src/utils/db.ts lines 12-30, identically part_001
lines 10-28 and part_006 lines 285-303). -/
def parseDSN (dsn : List Char) : Option PoolOptions :=
  match splitOnChar '@' dsn with
  | auth :: rest :: _ =>
    let authParts := splitOnChar ':' auth
    let restParts := splitOnChar '/' rest
    let host := restParts.headD []
    let hostParts := splitOnChar ':' host
    some
      { host := stripHost (hostParts.headD [])
        port := (hostParts.get? 1).bind jsParseInt
        user := authParts.headD []
        password := authParts.get? 1
        database := restParts.get? 1
        waitForConnections := true
        connectionLimit := 10
        maxIdle := 10
        queueLimit := 0 }
  | _ => none

/-- Split at the first occurrence of a separator: the part before it, and
everything after it (if present). -/
def splitFirst (sep : Char) (l : List Char) : List Char × Option (List Char) :=
  match splitOnChar sep l with
  | [] => (l, none)
  | [s] => (s, none)
  | s :: ss => (s, some (List.intercalate [sep] ss))

/-- Split at the last occurrence of a separator: the part before it, and
everything after it (if present). -/
def splitLast (sep : Char) (l : List Char) : List Char × Option (List Char) :=
  match (splitOnChar sep l).reverse with
  | [] => (l, none)
  | [_] => (l, none)
  | last :: front => (List.intercalate [sep] front.reverse, some last)

/-- Modelled from the spec: the split behavior the claim describes for
`parseDSN` — the first `':'` separates user from password, the first `'/'`
after the `'@'` separates host:port from the database name, and the LAST
`':'` in the host segment separates host from port, with the same fixed
pool constants. -/
def parseDSNClaim (dsn : List Char) : Option PoolOptions :=
  let fp1 := splitFirst '@' dsn
  match fp1.2 with
  | none => none
  | some rest =>
    let up := splitFirst ':' fp1.1
    let hd := splitFirst '/' rest
    let hp := splitLast ':' hd.1
    some
      { host := hp.1
        port := hp.2.bind jsParseInt
        user := up.1
        password := up.2
        database := hd.2
        waitForConnections := true
        connectionLimit := 10
        maxIdle := 10
        queueLimit := 0 }

/-! ## Database facade (part_006 lines 36-213)

The facade holds at most one adapter and an `initialized` flag.  Adapter
`initialize()` never throws: connectivity failures come back as `false`
(part_006 lines 308-335 and 80-115, pg-adapter lines 80-115, part_007 lines
22-33), so the success of each candidate backend is an environment fact,
modelled by an oracle `env : AdapterKind → Bool`.  The returned trace lists
the adapters constructed, in construction order. -/

/-- The three adapter kinds, in facade priority order. -/
inductive AdapterKind where
  | sql
  | pg
  | kv
deriving DecidableEq, Repr

/-- The `connection` field of a `pgConfig`: a connection string or an
options object (objects are always truthy). -/
inductive PgConn where
  | str (s : String)
  | obj
deriving DecidableEq, Repr

/-- JavaScript truthiness of a `pgConfig.connection` value. -/
def pgConnTruthy : PgConn → Bool
  | .str s => s ≠ ""
  | .obj => true

/-- PostgreSQL candidate configuration (part_006 lines 18-21). -/
structure PgCfg where
  connection : PgConn
  tableName : Option String
deriving DecidableEq, Repr

/-- Configuration object passed to `Database.initialize` (part_006 lines
9-27).  `kvNamespace` is an opaque KV handle; `none` models an absent (or
falsy) binding. -/
structure DatabaseConfig where
  sqlDsn : Option String
  pgConfig : Option PgCfg
  kvNamespace : Option Unit
deriving DecidableEq, Repr

/-- Truthiness of `config.sqlDsn`. -/
def sqlPresent (c : DatabaseConfig) : Bool :=
  truthyOpt c.sqlDsn

/-- Truthiness of `config.pgConfig && config.pgConfig.connection`. -/
def pgPresent (c : DatabaseConfig) : Bool :=
  match c.pgConfig with
  | some pc => pgConnTruthy pc.connection
  | none => false

/-- Truthiness of `config.kvNamespace`. -/
def kvPresent (c : DatabaseConfig) : Bool :=
  c.kvNamespace.isSome

/-- Facade state: the bound adapter (if any) and the `initialized` flag. -/
structure DbState where
  adapter : Option AdapterKind
  initialized : Bool
deriving DecidableEq, Repr

/-- `Database.initialize(config)` (part_006 lines 60-127): immediate success
when already initialized and bound; otherwise the candidates present in the
configuration are constructed and probed in priority order SQL, Postgres,
KV; the first success binds; a failed candidate is discarded before the
next is tried; if all present candidates fail (or none is present) no
adapter is bound and the call reports failure.  Returns (new state, result,
trace of constructed adapters). -/
def dbInitialize (st : DbState) (cfg : DatabaseConfig) (env : AdapterKind → Bool) :
    DbState × Bool × List AdapterKind :=
  if st.initialized && st.adapter.isSome then (st, true, [])
  else
    let t1 : List AdapterKind := if sqlPresent cfg then [.sql] else []
    if sqlPresent cfg && env .sql then (⟨some .sql, true⟩, true, t1)
    else
      let t2 := t1 ++ if pgPresent cfg then [.pg] else []
      if pgPresent cfg && env .pg then (⟨some .pg, true⟩, true, t2)
      else
        let t3 := t2 ++ if kvPresent cfg then [.kv] else []
        if kvPresent cfg && env .kv then (⟨some .kv, true⟩, true, t3)
        else (⟨none, st.initialized⟩, false, t3)

/-- The candidates present in a configuration, in facade priority order. -/
def presentOrder (cfg : DatabaseConfig) : List AdapterKind :=
  (if sqlPresent cfg then [.sql] else []) ++
  (if pgPresent cfg then [.pg] else []) ++
  (if kvPresent cfg then [.kv] else [])

/-- The attempts made when probing candidates in order: every failing
candidate, then the first succeeding one (after which probing stops). -/
def attemptedList (env : AdapterKind → Bool) : List AdapterKind → List AdapterKind
  | [] => []
  | k :: rest => if env k then [k] else k :: attemptedList env rest

/-- A sample configuration carrying only a SQL DSN. -/
def cfgSqlOnly : DatabaseConfig :=
  ⟨some "u:p@h:3306/db", none, none⟩

/-! ## SQL and Postgres adapter stores (part_006 lines 341-438, pg-adapter
lines 121-184)

The SQL `configs` table is a row list `(id, config)` with numeric ids; the
Postgres table keys rows by a text id.  The JSON column holds the stored
value (`JSON.stringify` on write, `JSON.parse` on read round-trip). -/

/-- `SQLAdapter.set('config', v)` (part_006 lines 384-438): select the row
with id 1; update it in place when present, else insert the explicit row
`(1, v)`. -/
def sqlSetConfig (t : List (Nat × JsonVal)) (v : JsonVal) : List (Nat × JsonVal) :=
  if t.any (fun r => r.1 == 1) then
    t.map (fun r => if r.1 == 1 then (r.1, v) else r)
  else t ++ [(1, v)]

/-- `SQLAdapter.get('config')` (part_006 lines 341-377): the config column
of the row with id 1, if any. -/
def sqlGetConfig (t : List (Nat × JsonVal)) : Option JsonVal :=
  (t.find? (fun r => r.1 == 1)).map Prod.snd

/-- Modelled fragment of JavaScript `JSON.parse` as used by
`PgAdapter.set`: parses non-empty decimal-digit strings to numbers and
rejects everything else.  The real `JSON.parse` accepts more inputs; the
theorems below rely only on its success on decimal numerals (and never on a
rejection). -/
def jsonParseFrag (s : String) : Option JsonVal :=
  if s ≠ "" ∧ s.data.all Char.isDigit then some (.num (digitsToNat s.data))
  else none

/-- The value actually stored by `PgAdapter.set` (pg-adapter lines 151-163):
a string that `JSON.parse` accepts is replaced by its parse; anything else
is stored as given. -/
def pgDataToStore (v : JsonVal) : JsonVal :=
  match v with
  | .str s =>
    match jsonParseFrag s with
    | some p => p
    | none => .str s
  | _ => v

/-- `PgAdapter.set(key, v)` (pg-adapter lines 146-184): an
`INSERT ... ON CONFLICT (id) DO UPDATE` upsert of the preprocessed value
under the text key. -/
def pgSet (t : List (String × JsonVal)) (key : String) (v : JsonVal) :
    List (String × JsonVal) :=
  let d := pgDataToStore v
  if t.any (fun r => r.1 == key) then
    t.map (fun r => if r.1 == key then (r.1, d) else r)
  else t ++ [(key, d)]

/-- `PgAdapter.get(key)` (pg-adapter lines 121-139): the config column of
the row with the given id, if any. -/
def pgGet (t : List (String × JsonVal)) (key : String) : Option JsonVal :=
  (t.find? (fun r => r.1 == key)).map Prod.snd

/-! ## Transaction handles (part_006 lines 525-554, pg-adapter lines
258-341, part_007 lines 164-166)

A transaction callback is modelled as a deeply embedded program over the
handle the adapter passes it: raw queries and nested `transaction` calls.
`sqlTxRun` is the SQL adapter's handle (whose `transaction` member throws
`'不支持嵌套事务'`); `pgTxRun` is the Postgres `tempAdapter` (whose
`transaction` member invokes the callback directly on the same handle);
`kvRun` is the KV adapter's plain operation semantics, and
`KVAdapter.transaction(callback)` is literally `callback(this)`.  The
interpreters return the trace of raw queries reaching the backend. -/

/-- A transaction callback body. -/
inductive Prog where
  | skip
  | rawQuery (q : String)
  | nested (body : Prog)
  | seq (a b : Prog)
deriving DecidableEq, Repr

/-- Adapter-level errors. -/
inductive DbErr where
  | nestedTransaction
  | notInitialized
deriving DecidableEq, Repr

/-- Callback execution against the SQL adapter's transaction handle
(part_006 lines 534-543): raw queries run on the held connection; a nested
`transaction` call throws, aborting the rest of the callback. -/
def sqlTxRun : Prog → Except DbErr (List String)
  | .skip => .ok []
  | .rawQuery q => .ok [q]
  | .nested _ => .error .nestedTransaction
  | .seq a b =>
    match sqlTxRun a with
    | .error e => .error e
    | .ok xs =>
      match sqlTxRun b with
      | .error e => .error e
      | .ok ys => .ok (xs ++ ys)

/-- Callback execution against the Postgres `tempAdapter` (pg-adapter lines
268-331): raw queries run on the transaction client; its `transaction`
member does not throw — it invokes the callback directly against the same
handle (lines 322-325). -/
def pgTxRun : Prog → Except DbErr (List String)
  | .skip => .ok []
  | .rawQuery q => .ok [q]
  | .nested body => pgTxRun body
  | .seq a b =>
    match pgTxRun a with
    | .error e => .error e
    | .ok xs =>
      match pgTxRun b with
      | .error e => .error e
      | .ok ys => .ok (xs ++ ys)

/-- Plain execution against the KV adapter: `query` is a capability
mismatch that logs and returns empty (part_007 lines 155-158), so no raw
query reaches a backend; `transaction` invokes its callback on the adapter
itself. -/
def kvRun : Prog → List String
  | .skip => []
  | .rawQuery _ => []
  | .nested body => kvRun body
  | .seq a b => kvRun a ++ kvRun b

/-- `KVAdapter.transaction(callback)` (part_007 lines 164-166): the callback
applied directly to the adapter itself. -/
def kvTransaction (p : Prog) : List String :=
  kvRun p

/-- A sample request context. -/
def testRequest : Request :=
  ⟨some "Mozilla", some "en", none, none, none, none, none, none,
   some "1.2.3.4", "10.0.0.1"⟩

/-- The same request context with a different user-agent header. -/
def testRequest2 : Request :=
  ⟨some "Chrome", some "en", none, none, none, none, none, none,
   some "1.2.3.4", "10.0.0.1"⟩

/-! ## Helper lemmas on splitting -/

theorem splitAux_not_mem {sep : Char} : ∀ {l : List Char}, sep ∉ l →
    splitAux sep l = (l, [])
  | [], _ => rfl
  | c :: rest, h => by
    have hc : ¬ c = sep := fun e => h (by simp [e])
    have ih := splitAux_not_mem (l := rest) (fun m => h (List.mem_cons_of_mem _ m))
    simp [splitAux, hc, ih]

theorem splitAux_append {sep : Char} : ∀ {a : List Char} (b : List Char), sep ∉ a →
    splitAux sep (a ++ sep :: b) = (a, (splitAux sep b).1 :: (splitAux sep b).2)
  | [], b, _ => by simp [splitAux]
  | c :: a, b, h => by
    have hc : ¬ c = sep := fun e => h (by simp [e])
    have ih := splitAux_append (a := a) b (fun m => h (List.mem_cons_of_mem _ m))
    simp [splitAux, hc, ih]

theorem splitOnChar_not_mem {sep : Char} {l : List Char} (h : sep ∉ l) :
    splitOnChar sep l = [l] := by
  simp [splitOnChar, splitAux_not_mem h]

theorem splitOnChar_append {sep : Char} {a : List Char} (b : List Char) (h : sep ∉ a) :
    splitOnChar sep (a ++ sep :: b) = a :: splitOnChar sep b := by
  simp [splitOnChar, splitAux_append b h]

theorem parseLit_append : ∀ (p r : List Char), parseLit p (p ++ r) = some r
  | [], _ => rfl
  | c :: p, r => by simp [parseLit, parseLit_append p r]

/-! ## Claim C5: the DSN parser -/

/-- C5 counterexample: on `u:p@h:1:2/d` (exactly one `'@'`), the code splits
the host segment at its FIRST `':'` (host `h`, port `1`), not at the last
`':'` as the claim states (which would give host `h:1`, port `2`). -/
theorem claim_C5_counterexample :
    parseDSN "u:p@h:1:2/d".data ≠ parseDSNClaim "u:p@h:1:2/d".data ∧
    (parseDSN "u:p@h:1:2/d".data).map PoolOptions.port = some (some 1) ∧
    (parseDSNClaim "u:p@h:1:2/d".data).map PoolOptions.port = some (some 2) := by
  refine ⟨?_, ?_, ?_⟩ <;> decide

/-- C5 (amended): for a DSN of the positional shape
`user:password@host:port/database` (each component free of the separators
that delimit it), `parseDSN` returns the components split positionally —
with the FIRST `':'` of the host segment separating host from port, and the
`tcp(`/`)` wrappers stripped from the host — and every successful parse
carries the fixed constants `connectionLimit 10`, `maxIdle 10`,
`queueLimit 0`. -/
theorem claim_C5_amended :
    (∀ u p h pt d : List Char,
      '@' ∉ u → ':' ∉ u → '@' ∉ p → ':' ∉ p →
      '@' ∉ h → ':' ∉ h → '/' ∉ h →
      '@' ∉ pt → ':' ∉ pt → '/' ∉ pt →
      '@' ∉ d → '/' ∉ d →
      parseDSN (u ++ ':' :: p ++ '@' :: (h ++ ':' :: pt ++ '/' :: d)) =
        some ⟨stripHost h, jsParseInt pt, u, some p, some d, true, 10, 10, 0⟩) ∧
    (∀ dsn o, parseDSN dsn = some o →
      o.connectionLimit = 10 ∧ o.maxIdle = 10 ∧ o.queueLimit = 0) := by
  constructor
  · intro u p h pt d hu1 hu2 hp1 hp2 hh1 hh2 hh3 hpt1 hpt2 hpt3 hd1 hd2
    have hauth : '@' ∉ (u ++ ':' :: p) := by
      intro m
      rcases List.mem_append.mp m with m | m
      · exact hu1 m
      · rcases List.mem_cons.mp m with e | m
        · exact absurd e (by decide)
        · exact hp1 m
    have hhp : '/' ∉ (h ++ ':' :: pt) := by
      intro m
      rcases List.mem_append.mp m with m | m
      · exact hh3 m
      · rcases List.mem_cons.mp m with e | m
        · exact absurd e (by decide)
        · exact hpt3 m
    have hrest : '@' ∉ ((h ++ ':' :: pt) ++ '/' :: d) := by
      intro m
      rcases List.mem_append.mp m with m | m
      · rcases List.mem_append.mp m with m | m
        · exact hh1 m
        · rcases List.mem_cons.mp m with e | m
          · exact absurd e (by decide)
          · exact hpt1 m
      · rcases List.mem_cons.mp m with e | m
        · exact absurd e (by decide)
        · exact hd1 m
    have s1 : splitOnChar '@' ((u ++ ':' :: p) ++ '@' :: ((h ++ ':' :: pt) ++ '/' :: d)) =
        (u ++ ':' :: p) :: splitOnChar '@' ((h ++ ':' :: pt) ++ '/' :: d) :=
      splitOnChar_append _ hauth
    have s2 : splitOnChar '@' ((h ++ ':' :: pt) ++ '/' :: d) =
        [(h ++ ':' :: pt) ++ '/' :: d] := splitOnChar_not_mem hrest
    have s3 : splitOnChar ':' (u ++ ':' :: p) = u :: splitOnChar ':' p :=
      splitOnChar_append _ hu2
    have s4 : splitOnChar ':' p = [p] := splitOnChar_not_mem hp2
    have s5 : splitOnChar '/' ((h ++ ':' :: pt) ++ '/' :: d) =
        (h ++ ':' :: pt) :: splitOnChar '/' d := splitOnChar_append _ hhp
    have s6 : splitOnChar '/' d = [d] := splitOnChar_not_mem hd2
    have s7 : splitOnChar ':' (h ++ ':' :: pt) = h :: splitOnChar ':' pt :=
      splitOnChar_append _ hh2
    have s8 : splitOnChar ':' pt = [pt] := splitOnChar_not_mem hpt2
    simp only [List.append_assoc, List.cons_append] at s1 s2 s5
    simp [parseDSN, s1, s2, s3, s4, s5, s6, s7, s8]
  · intro dsn o hparse
    rcases hs : splitOnChar '@' dsn with _ | ⟨auth, tl⟩
    · rw [parseDSN, hs] at hparse
      exact absurd hparse (by simp)
    · rcases tl with _ | ⟨rest, tl2⟩
      · rw [parseDSN, hs] at hparse
        exact absurd hparse (by simp)
      · rw [parseDSN, hs] at hparse
        simp only [Option.some.injEq] at hparse
        rw [← hparse]
        exact ⟨rfl, rfl, rfl⟩

/-- C5 amended witness: both conjuncts applied at concrete inputs. -/
theorem claim_C5_amended_witness :
    parseDSN ("user".data ++ ':' :: "pw".data ++ '@' ::
        ("db.host".data ++ ':' :: "3306".data ++ '/' :: "videos".data)) =
      some ⟨stripHost "db.host".data, jsParseInt "3306".data, "user".data,
        some "pw".data, some "videos".data, true, 10, 10, 0⟩ ∧
    ((⟨"h".data, some 1, "u".data, some "p".data, some "d".data,
        true, 10, 10, 0⟩ : PoolOptions).connectionLimit = 10 ∧
      (⟨"h".data, some 1, "u".data, some "p".data, some "d".data,
        true, 10, 10, 0⟩ : PoolOptions).maxIdle = 10 ∧
      (⟨"h".data, some 1, "u".data, some "p".data, some "d".data,
        true, 10, 10, 0⟩ : PoolOptions).queueLimit = 0) :=
  ⟨claim_C5_amended.1 "user".data "pw".data "db.host".data "3306".data "videos".data
    (by decide) (by decide) (by decide) (by decide) (by decide) (by decide)
    (by decide) (by decide) (by decide) (by decide) (by decide) (by decide),
   claim_C5_amended.2 "u:p@h:1/d".data
    ⟨"h".data, some 1, "u".data, some "p".data, some "d".data, true, 10, 10, 0⟩
    (by decide)⟩

/-! ## Claims C2 and C3: the database facade -/

/-- C2: from the unbound state, `Database.initialize` constructs and probes
exactly the candidates present in the configuration in priority order SQL,
Postgres, KV, stopping at (and binding to) the first whose `initialize()`
succeeds; the result is success exactly when some present candidate
succeeds, and no adapter is bound otherwise. -/
theorem claim_C2 (cfg : DatabaseConfig) (env : AdapterKind → Bool) :
    dbInitialize ⟨none, false⟩ cfg env =
      (⟨(presentOrder cfg).find? env, ((presentOrder cfg).find? env).isSome⟩,
       ((presentOrder cfg).find? env).isSome,
       attemptedList env (presentOrder cfg)) := by
  cases hs : sqlPresent cfg <;> cases hp : pgPresent cfg <;> cases hk : kvPresent cfg <;>
    cases h1 : env .sql <;> cases h2 : env .pg <;> cases h3 : env .kv <;>
      simp [dbInitialize, presentOrder, attemptedList, hs, hp, hk, h1, h2, h3]

/-- C3: once `initialize` has succeeded (and `close` has not been called),
any further `initialize` call — with any configuration and any backend
availability — returns success immediately, keeps the same bound adapter,
and constructs no adapter at all. -/
theorem claim_C3 (st : DbState) (cfg : DatabaseConfig) (env : AdapterKind → Bool)
    (st1 : DbState) (tr : List AdapterKind)
    (hsucc : dbInitialize st cfg env = (st1, true, tr)) :
    ∀ (cfg2 : DatabaseConfig) (env2 : AdapterKind → Bool),
      dbInitialize st1 cfg2 env2 = (st1, true, []) := by
  intro cfg2 env2
  have key : st1.initialized = true ∧ st1.adapter.isSome = true := by
    by_cases hg : (st.initialized && st.adapter.isSome) = true
    · simp only [dbInitialize, if_pos hg] at hsucc
      injection hsucc with e1 _
      subst e1
      simpa using hg
    · by_cases c1 : (sqlPresent cfg && env AdapterKind.sql) = true
      · simp only [dbInitialize, if_neg hg, if_pos c1] at hsucc
        injection hsucc with e1 _
        subst e1
        exact ⟨rfl, rfl⟩
      · by_cases c2 : (pgPresent cfg && env AdapterKind.pg) = true
        · simp only [dbInitialize, if_neg hg, if_neg c1, if_pos c2] at hsucc
          injection hsucc with e1 _
          subst e1
          exact ⟨rfl, rfl⟩
        · by_cases c3 : (kvPresent cfg && env AdapterKind.kv) = true
          · simp only [dbInitialize, if_neg hg, if_neg c1, if_neg c2, if_pos c3] at hsucc
            injection hsucc with e1 _
            subst e1
            exact ⟨rfl, rfl⟩
          · simp only [dbInitialize, if_neg hg, if_neg c1, if_neg c2, if_neg c3] at hsucc
            injection hsucc with _ e2
            injection e2 with e3 _
            exact absurd e3 (by decide)
  unfold dbInitialize
  rw [if_pos (by rw [key.1, key.2]; rfl)]

/-- C3 witness: a successful SQL bind followed by a second `initialize`. -/
theorem claim_C3_witness :
    dbInitialize ⟨some AdapterKind.sql, true⟩ cfgSqlOnly (fun _ => false) =
      (⟨some AdapterKind.sql, true⟩, true, []) :=
  claim_C3 ⟨none, false⟩ cfgSqlOnly (fun _ => true)
    ⟨some AdapterKind.sql, true⟩ [AdapterKind.sql] (by decide)
    cfgSqlOnly (fun _ => false)

/-! ## Claims C1 and C10: password verification (part_002) -/

/-- C1 counterexample: a stored record with `enableLogin = false` and
`loginPassword = "p"` — `verifyPassword "p"` returns `true` even though the
claim demands `false` whenever the login-enabled flag is off. -/
theorem claim_C1_counterexample :
    objLookup cfgLoginDisabled "enableLogin" = some (JsonVal.bool false) ∧
    verifyPassword "p" (some "u:p@h:3306/db") (.rows [cfgLoginDisabled]) = true :=
  ⟨rfl, rfl⟩

/-- C1 (amended): `verifyPassword` never consults the login-enabled flag:
with a DSN present, for EVERY stored record — whatever its `enableLogin`
field holds — it returns exactly the comparison of the candidate with the
record's `loginPassword` string. -/
theorem claim_C1_amended
    (pw : String) (dsn : Option String) (row : JsObj) (rest : List JsObj) (s : String)
    (ht : truthyOpt dsn = true)
    (hl : objLookup row "loginPassword" = some (.str s)) :
    verifyPassword pw dsn (.rows (row :: rest)) = (pw == s) := by
  simp [verifyPassword, ht, hl]

/-- C1 amended witness: applied at a record with login disabled. -/
theorem claim_C1_amended_witness :
    verifyPassword "p" (some "dsn") (.rows [cfgLoginDisabled]) = ("p" == "p") :=
  claim_C1_amended "p" (some "dsn") cfgLoginDisabled [] "p" (by decide) rfl

/-- C10: `verifyPassword` accepts any candidate when no DSN is configured,
and likewise when the query succeeds but the `configs` table is empty. -/
theorem claim_C10 :
    (∀ (pw : String) (db : QueryOutcome), verifyPassword pw none db = true) ∧
    (∀ (pw : String) (dsn : Option String), truthyOpt dsn = true →
      verifyPassword pw dsn (.rows []) = true) := by
  constructor
  · intro pw db
    rfl
  · intro pw dsn ht
    simp [verifyPassword, ht]

/-- C10 witness. -/
theorem claim_C10_witness :
    verifyPassword "anything" (some "u:p@h/d") (.rows []) = true :=
  claim_C10.2 "anything" (some "u:p@h/d") (by decide)

/-! ## Claims C8 and C9: configuration reads (part_002) -/

/-- C8: the object returned by `getPublicConfig` never carries a
`loginPassword` field, for every DSN and every backend outcome (stored
records with an empty-string or absent password included). -/
theorem claim_C8 (dsn : Option String) (db : QueryOutcome) :
    "loginPassword" ∉ (getPublicConfig dsn db).map Prod.fst := by
  intro hmem
  rcases List.mem_map.mp hmem with ⟨p, hp, he⟩
  rcases List.mem_filter.mp hp with ⟨-, hne⟩
  simp at hne
  exact hne he

/-- C9: `getConfig` falls back to the literal default record when no DSN is
configured, when the backend read fails, and when the table is empty. -/
theorem claim_C9 :
    (∀ db, getConfig none db = defaultConfig) ∧
    (∀ dsn, truthyOpt dsn = true → getConfig dsn .err = defaultConfig) ∧
    (∀ dsn, truthyOpt dsn = true → getConfig dsn (.rows []) = defaultConfig) := by
  refine ⟨fun db => rfl, fun dsn ht => ?_, fun dsn ht => ?_⟩ <;> simp [getConfig, ht]

/-- C9 witness. -/
theorem claim_C9_witness :
    getConfig (some "u:p@h/d") .err = defaultConfig ∧
    getConfig (some "u:p@h/d") (.rows []) = defaultConfig :=
  ⟨claim_C9.2.1 (some "u:p@h/d") (by decide),
   claim_C9.2.2 (some "u:p@h/d") (by decide)⟩

/-! ## Upsert lemmas shared by the SQL and Postgres adapters -/

theorem find?_upsert {κ : Type} [BEq κ] [LawfulBEq κ] :
    ∀ (t : List (κ × JsonVal)) (k : κ) (d : JsonVal),
    (if t.any (fun r => r.1 == k) then
        t.map (fun r => if r.1 == k then (r.1, d) else r)
      else t ++ [(k, d)]).find? (fun r => r.1 == k) = some (k, d)
  | [], k, d => by simp [List.find?]
  | r :: t, k, d => by
    cases hr : (r.1 == k) with
    | true =>
      have he : r.1 = k := eq_of_beq hr
      simp [List.any_cons, hr, List.find?, he]
    | false =>
      have ih := find?_upsert t k d
      by_cases ha : t.any (fun r => r.1 == k) = true
      · rw [if_pos ha] at ih
        have hany : (r :: t).any (fun r => r.1 == k) = true := by
          simp [List.any_cons, ha]
        rw [if_pos hany, List.map_cons, if_neg (by simp [hr]),
          List.find?_cons_of_neg _ (by simp [hr])]
        exact ih
      · rw [if_neg ha] at ih
        have hany : ¬ (r :: t).any (fun r => r.1 == k) = true := by
          simp [List.any_cons, hr]
          simpa using ha
        rw [if_neg hany, List.cons_append,
          List.find?_cons_of_neg _ (by simp [hr])]
        exact ih

theorem countP_map_upd {κ : Type} [BEq κ] [LawfulBEq κ] :
    ∀ (t : List (κ × JsonVal)) (k : κ) (d : JsonVal),
    (t.map (fun r => if r.1 == k then (r.1, d) else r)).countP (fun r => r.1 == k) =
      t.countP (fun r => r.1 == k)
  | [], _, _ => rfl
  | r :: t, k, d => by
    have ih := countP_map_upd t k d
    cases hr : (r.1 == k) <;> simp [List.countP_cons, hr, ih]

theorem countP_upsert {κ : Type} [BEq κ] [LawfulBEq κ]
    (t : List (κ × JsonVal)) (k : κ) (d : JsonVal)
    (h : t.countP (fun r => r.1 == k) ≤ 1) :
    (if t.any (fun r => r.1 == k) then
        t.map (fun r => if r.1 == k then (r.1, d) else r)
      else t ++ [(k, d)]).countP (fun r => r.1 == k) = 1 := by
  by_cases ha : t.any (fun r => r.1 == k) = true
  · rw [if_pos ha, countP_map_upd]
    have pos : 0 < t.countP (fun r => r.1 == k) := by
      rcases List.any_eq_true.mp ha with ⟨a, hmem, hp⟩
      exact List.countP_pos_iff.mpr ⟨a, hmem, hp⟩
    omega
  · rw [if_neg ha]
    have hz : t.countP (fun r => r.1 == k) = 0 := by
      by_contra hnz
      rcases List.countP_pos_iff.mp (Nat.pos_of_ne_zero hnz) with ⟨a, hmem, hp⟩
      exact ha (List.any_eq_true.mpr ⟨a, hmem, hp⟩)
    rw [List.countP_append, hz]
    simp [List.countP_cons]

/-! ## Claim C4: upsert correctness of the SQL and Postgres adapters -/

/-- C4 counterexample: on the Postgres adapter, `set('config', B)` with the
STRING `"42"` stores its `JSON.parse` (the number 42), so the following
`get('config')` does not return `B`. -/
theorem claim_C4_counterexample :
    pgGet (pgSet (pgSet [] "config" JsonVal.null) "config" (JsonVal.str "42")) "config" =
      some (JsonVal.num 42) ∧
    JsonVal.num 42 ≠ JsonVal.str "42" :=
  ⟨rfl, fun h => JsonVal.noConfusion h⟩

/-- C4 (amended): `set('config', A)` then `set('config', B)` leaves exactly
one row for the singleton key on both adapters (assuming the primary-key
invariant of at most one such row beforehand), and the following
`get('config')` returns exactly `B` — on the SQL adapter for every `B`, on
the Postgres adapter for every non-string `B` (a string `B` accepted by
`JSON.parse` is stored parsed, per the counterexample). -/
theorem claim_C4_amended :
    (∀ (A B : JsonVal) (t : List (Nat × JsonVal)),
      t.countP (fun r => r.1 == 1) ≤ 1 →
      (sqlSetConfig (sqlSetConfig t A) B).countP (fun r => r.1 == 1) = 1 ∧
      sqlGetConfig (sqlSetConfig (sqlSetConfig t A) B) = some B) ∧
    (∀ (A B : JsonVal) (t : List (String × JsonVal)),
      t.countP (fun r => r.1 == "config") ≤ 1 →
      (pgSet (pgSet t "config" A) "config" B).countP (fun r => r.1 == "config") = 1 ∧
      ((∀ s, B ≠ .str s) →
        pgGet (pgSet (pgSet t "config" A) "config" B) "config" = some B)) := by
  constructor
  · intro A B t h
    have h1 : (sqlSetConfig t A).countP (fun r => r.1 == 1) = 1 := countP_upsert t 1 A h
    refine ⟨countP_upsert _ 1 B (by omega), ?_⟩
    show ((sqlSetConfig (sqlSetConfig t A) B).find? (fun r => r.1 == 1)).map Prod.snd =
      some B
    rw [show sqlSetConfig (sqlSetConfig t A) B =
      (if (sqlSetConfig t A).any (fun r => r.1 == 1) then
        (sqlSetConfig t A).map (fun r => if r.1 == 1 then (r.1, B) else r)
      else sqlSetConfig t A ++ [(1, B)]) from rfl]
    rw [find?_upsert (sqlSetConfig t A) 1 B]
    rfl
  · intro A B t h
    have h1 : (pgSet t "config" A).countP (fun r => r.1 == "config") = 1 :=
      countP_upsert t "config" (pgDataToStore A) h
    refine ⟨countP_upsert _ "config" (pgDataToStore B) (by omega), ?_⟩
    intro hB
    have hd : pgDataToStore B = B := by
      cases B with
      | str s => exact absurd rfl (hB s)
      | null => rfl
      | bool b => rfl
      | num n => rfl
      | arr xs => rfl
      | obj fs => rfl
    show ((pgSet (pgSet t "config" A) "config" B).find? (fun r => r.1 == "config")).map
      Prod.snd = some B
    rw [show pgSet (pgSet t "config" A) "config" B =
      (if (pgSet t "config" A).any (fun r => r.1 == "config") then
        (pgSet t "config" A).map
          (fun r => if r.1 == "config" then (r.1, pgDataToStore B) else r)
      else pgSet t "config" A ++ [("config", pgDataToStore B)]) from rfl]
    rw [find?_upsert (pgSet t "config" A) "config" (pgDataToStore B)]
    rw [hd]
    rfl

/-- C4 amended witness: both adapters exercised from the empty table. -/
theorem claim_C4_amended_witness :
    ((sqlSetConfig (sqlSetConfig [] (JsonVal.str "A")) (JsonVal.str "B")).countP
        (fun r => r.1 == 1) = 1 ∧
      sqlGetConfig (sqlSetConfig (sqlSetConfig [] (JsonVal.str "A")) (JsonVal.str "B")) =
        some (JsonVal.str "B")) ∧
    ((pgSet (pgSet [] "config" (JsonVal.str "A")) "config" (JsonVal.num 7)).countP
        (fun r => r.1 == "config") = 1 ∧
      pgGet (pgSet (pgSet [] "config" (JsonVal.str "A")) "config" (JsonVal.num 7))
        "config" = some (JsonVal.num 7)) :=
  ⟨claim_C4_amended.1 (JsonVal.str "A") (JsonVal.str "B") [] (by decide),
   by
    have h := claim_C4_amended.2 (JsonVal.str "A") (JsonVal.num 7) [] (by decide)
    exact ⟨h.1, h.2 (fun s hs => JsonVal.noConfusion hs)⟩⟩

/-! ## Claim C6: transaction semantics -/

/-- C6 counterexample: a nested `transaction` call on the Postgres
transaction handle does NOT fail fast — it executes the callback directly
(returning its result), unlike the SQL handle, which throws the
nested-transaction error. -/
theorem claim_C6_counterexample :
    pgTxRun (Prog.nested (Prog.rawQuery "SELECT 1")) = Except.ok ["SELECT 1"] ∧
    pgTxRun (Prog.nested (Prog.rawQuery "SELECT 1")) ≠
      Except.error DbErr.nestedTransaction ∧
    sqlTxRun (Prog.nested (Prog.rawQuery "SELECT 1")) =
      Except.error DbErr.nestedTransaction :=
  ⟨rfl, fun h => Except.noConfusion h, rfl⟩

/-- C6 (amended): on the SQL adapter a nested `transaction` on the handle
fails fast with the nested-transaction error (also aborting the remainder
of the callback); on the Postgres adapter the handle's `transaction`
executes its callback directly against the same handle; the KV adapter's
top-level `transaction` executes the callback directly against the adapter
itself. -/
theorem claim_C6_amended :
    (∀ p : Prog, sqlTxRun (.nested p) = .error .nestedTransaction) ∧
    (∀ p q : Prog, sqlTxRun (.seq (.nested p) q) = .error .nestedTransaction) ∧
    (∀ p : Prog, pgTxRun (.nested p) = pgTxRun p) ∧
    (∀ p : Prog, kvTransaction p = kvRun p) :=
  ⟨fun _ => rfl, fun _ _ => rfl, fun _ => rfl, fun _ => rfl⟩

/-! ## Base64 round trip -/

theorem b64Val_b64Char : ∀ m, m < 64 → b64Val (b64Char m) = some m := by decide

theorem b64Char_ne_pad : ∀ m, m < 64 → b64Char m ≠ '=' := by decide

theorem base64Decode_encode : ∀ (bs : List Nat), (∀ b ∈ bs, b < 256) →
    base64Decode (base64Encode bs) = some bs
  | [], _ => rfl
  | [a], h => by
    have ha : a < 256 := h a (by simp)
    have e1 := b64Val_b64Char (a / 4) (by omega)
    have e2 := b64Val_b64Char (a % 4 * 16) (by omega)
    simp [base64Encode, base64Decode, e1, e2]
    omega
  | [a, b], h => by
    have ha : a < 256 := h a (by simp)
    have hb : b < 256 := h b (by simp)
    have e1 := b64Val_b64Char (a / 4) (by omega)
    have e2 := b64Val_b64Char (a % 4 * 16 + b / 16) (by omega)
    have e3 := b64Val_b64Char (b % 16 * 4) (by omega)
    have ne3 := b64Char_ne_pad (b % 16 * 4) (by omega)
    simp [base64Encode, base64Decode, e1, e2, e3, ne3]
    constructor <;> omega
  | a :: b :: c :: rest, h => by
    have ha : a < 256 := h a (by simp)
    have hb : b < 256 := h b (by simp)
    have hc : c < 256 := h c (by simp)
    have ih := base64Decode_encode rest (fun x hx => h x (by simp [hx]))
    have e1 := b64Val_b64Char (a / 4) (by omega)
    have e2 := b64Val_b64Char (a % 4 * 16 + b / 16) (by omega)
    have e3 := b64Val_b64Char (b % 16 * 4 + c / 64) (by omega)
    have e4 := b64Val_b64Char (c % 64) (by omega)
    have ne3 := b64Char_ne_pad (b % 16 * 4 + c / 64) (by omega)
    have ne4 := b64Char_ne_pad (c % 64) (by omega)
    have k1 : a / 4 * 4 + (a % 4 * 16 + b / 16) / 16 = a := by omega
    have k2 : (a % 4 * 16 + b / 16) % 16 * 16 + (b % 16 * 4 + c / 64) / 4 = b := by
      omega
    have k3 : (b % 16 * 4 + c / 64) % 4 * 64 + c % 64 = c := by omega
    simp [base64Encode, base64Decode, e1, e2, e3, e4, ne3, ne4, k1, k2, k3, ih]

/-! ## UTF-8 round trip -/

theorem char_toNat_lt (c : Char) : c.toNat < 1114112 := by
  rcases c.valid with h | h
  · exact Nat.lt_trans h (by norm_num)
  · exact h.2

theorem utf8EncodeChar_lt (c : Char) : ∀ b ∈ utf8EncodeChar c, b < 256 := by
  have hv := char_toNat_lt c
  intro b hb
  unfold utf8EncodeChar at hb
  split_ifs at hb with h1 h2 h3 <;> simp at hb <;> rcases hb with rfl | hb
  · omega
  · omega
  · rcases hb with rfl | rfl <;> omega
  · omega
  · rcases hb with rfl | rfl | rfl <;> omega
  · omega
  · rcases hb with rfl | rfl | rfl | rfl <;> omega

theorem utf8Encode_lt (l : List Char) : ∀ b ∈ utf8Encode l, b < 256 := by
  intro b hb
  unfold utf8Encode at hb
  rcases List.mem_flatten.mp hb with ⟨piece, hpm, hbp⟩
  rcases List.mem_map.mp hpm with ⟨c, -, rfl⟩
  exact utf8EncodeChar_lt c b hbp

theorem utf8EncodeChar_ne_nil (c : Char) : utf8EncodeChar c ≠ [] := by
  unfold utf8EncodeChar
  split_ifs
  all_goals simp

theorem utf8DecodeStep_encodeChar (c : Char) (bs : List Nat) :
    utf8DecodeStep (utf8EncodeChar c ++ bs) = some (c, bs) := by
  have hv := char_toNat_lt c
  unfold utf8EncodeChar
  by_cases h1 : c.toNat < 128
  · simp only [if_pos h1, List.cons_append, List.nil_append]
    simp [utf8DecodeStep, h1, Char.ofNat_toNat]
  · by_cases h2 : c.toNat < 2048
    · have r1 : ¬ (192 + c.toNat / 64 < 128) := by omega
      have r2 : 192 + c.toNat / 64 < 224 := by omega
      have rc : utf8Cont (128 + c.toNat % 64) = true := by
        simp only [utf8Cont, Bool.and_eq_true, decide_eq_true_eq]
        omega
      have key : (192 + c.toNat / 64 - 192) * 64 + (128 + c.toNat % 64 - 128) =
        c.toNat := by omega
      simp only [if_neg h1, if_pos h2, List.cons_append, List.nil_append]
      simp [utf8DecodeStep, utf8Step2, r1, r2, rc, key, Char.ofNat_toNat]
      rw [show c.toNat / 64 * 64 + c.toNat % 64 = c.toNat from by omega,
        Char.ofNat_toNat]
    · by_cases h3 : c.toNat < 65536
      · have r1 : ¬ (224 + c.toNat / 4096 < 128) := by omega
        have r2 : ¬ (224 + c.toNat / 4096 < 224) := by omega
        have r3 : 224 + c.toNat / 4096 < 240 := by omega
        have rc : utf8Cont (128 + c.toNat / 64 % 64) = true ∧
            utf8Cont (128 + c.toNat % 64) = true := by
          simp only [utf8Cont, Bool.and_eq_true, decide_eq_true_eq]
          omega
        have key : (224 + c.toNat / 4096 - 224) * 4096 +
            (128 + c.toNat / 64 % 64 - 128) * 64 + (128 + c.toNat % 64 - 128) =
            c.toNat := by omega
        simp only [if_neg h1, if_neg h2, if_pos h3, List.cons_append, List.nil_append]
        simp [utf8DecodeStep, utf8Step3, r1, r2, r3, rc.1, rc.2, key, Char.ofNat_toNat]
        rw [show c.toNat / 4096 * 4096 + c.toNat / 64 % 64 * 64 + c.toNat % 64 =
          c.toNat from by omega, Char.ofNat_toNat]
      · have r1 : ¬ (240 + c.toNat / 262144 < 128) := by omega
        have r2 : ¬ (240 + c.toNat / 262144 < 224) := by omega
        have r3 : ¬ (240 + c.toNat / 262144 < 240) := by omega
        have rc : utf8Cont (128 + c.toNat / 4096 % 64) = true ∧
            utf8Cont (128 + c.toNat / 64 % 64) = true ∧
            utf8Cont (128 + c.toNat % 64) = true := by
          simp only [utf8Cont, Bool.and_eq_true, decide_eq_true_eq]
          omega
        have key : (240 + c.toNat / 262144 - 240) * 262144 +
            (128 + c.toNat / 4096 % 64 - 128) * 4096 +
            (128 + c.toNat / 64 % 64 - 128) * 64 + (128 + c.toNat % 64 - 128) =
            c.toNat := by omega
        simp only [if_neg h1, if_neg h2, if_neg h3, List.cons_append, List.nil_append]
        simp [utf8DecodeStep, utf8Step4, r1, r2, r3, rc.1, rc.2.1, rc.2.2, key,
          Char.ofNat_toNat]
        rw [show c.toNat / 262144 * 262144 + c.toNat / 4096 % 64 * 4096 +
          c.toNat / 64 % 64 * 64 + c.toNat % 64 = c.toNat from by omega,
          Char.ofNat_toNat]

theorem utf8DecodeGo_encode : ∀ (l : List Char) (fuel : Nat), l.length ≤ fuel →
    utf8DecodeGo fuel (utf8Encode l) = some l
  | [], fuel, _ => by
    cases fuel with
    | zero => rfl
    | succ f => rfl
  | c :: l, fuel, hf => by
    cases fuel with
    | zero => exact absurd hf (by simp)
    | succ f =>
      have ih := utf8DecodeGo_encode l f (by
        have := Nat.le_of_succ_le_succ hf
        simpa using this)
      rcases hb : utf8EncodeChar c with _ | ⟨b, tl⟩
      · exact absurd hb (utf8EncodeChar_ne_nil c)
      · have hstep : utf8DecodeStep (b :: (tl ++ utf8Encode l)) =
            some (c, utf8Encode l) := by
          have h := utf8DecodeStep_encodeChar c (utf8Encode l)
          rw [hb] at h
          simpa [List.cons_append] using h
        rw [show utf8Encode (c :: l) = utf8EncodeChar c ++ utf8Encode l from by
          simp [utf8Encode]]
        rw [hb, List.cons_append]
        simp only [utf8DecodeGo, hstep, ih]
        rfl

theorem utf8Encode_length_ge : ∀ (l : List Char), l.length ≤ (utf8Encode l).length
  | [] => Nat.le_refl 0
  | c :: l => by
    have ih := utf8Encode_length_ge l
    have h1 : 1 ≤ (utf8EncodeChar c).length := by
      cases he : utf8EncodeChar c with
      | nil => exact absurd he (utf8EncodeChar_ne_nil c)
      | cons a t => simp
    rw [show utf8Encode (c :: l) = utf8EncodeChar c ++ utf8Encode l from by
      simp [utf8Encode]]
    rw [List.length_append, List.length_cons]
    omega

theorem utf8Decode_encode (l : List Char) : utf8Decode (utf8Encode l) = some l :=
  utf8DecodeGo_encode l (utf8Encode l).length (utf8Encode_length_ge l)

/-! ## JSON string escaping round trip -/

theorem hexVal_hexDigitChar : ∀ m, m < 16 → hexVal (hexDigitChar m) = some m := by
  decide

theorem scanStr_escChar (c : Char) (rest : List Char) :
    scanStr (escChar c ++ rest) = (scanStr rest).map (fun p => (c :: p.1, p.2)) := by
  by_cases h1 : c = '"'
  · subst h1; rfl
  · by_cases h2 : c = '\\'
    · subst h2; rfl
    · by_cases h3 : c = Char.ofNat 8
      · subst h3; rfl
      · by_cases h4 : c = Char.ofNat 9
        · subst h4; rfl
        · by_cases h5 : c = Char.ofNat 10
          · subst h5; rfl
          · by_cases h6 : c = Char.ofNat 12
            · subst h6; rfl
            · by_cases h7 : c = Char.ofNat 13
              · subst h7; rfl
              · by_cases h8 : c.toNat < 32
                · have he : escChar c =
                      ['\\', 'u', '0', '0', hexDigitChar (c.toNat / 16),
                        hexDigitChar (c.toNat % 16)] := by
                    simp [escChar, h1, h2, h3, h4, h5, h6, h7, h8]
                  rw [he]
                  have e1 := hexVal_hexDigitChar (c.toNat / 16) (by omega)
                  have e2 := hexVal_hexDigitChar (c.toNat % 16) (by omega)
                  have e0 : hexVal '0' = some 0 := rfl
                  simp only [List.cons_append, scanStr, e0, e1, e2]
                  rw [show 0 * 4096 + 0 * 256 + c.toNat / 16 * 16 + c.toNat % 16 =
                    c.toNat from by omega, Char.ofNat_toNat]
                  rfl
                · have he : escChar c = [c] := by
                    simp [escChar, h1, h2, h3, h4, h5, h6, h7, h8]
                  rw [he]
                  simp [scanStr, h1, h2]

theorem scanStr_escStr : ∀ (s rest : List Char),
    scanStr (escStr s ++ '"' :: rest) = some (s, rest)
  | [], _ => rfl
  | c :: s, rest => by
    have ih := scanStr_escStr s rest
    rw [show escStr (c :: s) = escChar c ++ escStr s from by simp [escStr]]
    rw [List.append_assoc, scanStr_escChar, ih]
    rfl

theorem pField_label (lab v rest : List Char) :
    pField lab (lab ++ (escStr v ++ '"' :: rest)) = some (v, rest) := by
  simp [pField, parseLit_append, scanStr_escStr]

theorem parseFp_fpJson (fp : FpInput) : parseFp (fpJson fp) = some fp := by
  simp only [fpJson, List.append_assoc, List.cons_append]
  simp only [parseFp, pField_label, Option.some_bind]

/-! ## Claim C7: token verification and fingerprint binding -/

theorem jwtVerify_sign (p : TokenPayload) (secret : String) (sec now : Nat)
    (h : now < sec + 86400) :
    jwtVerify (jwtSign p secret sec) secret now = some p := by
  unfold jwtSign jwtVerify
  rw [if_pos ⟨rfl, h⟩]

theorem jwtVerify_sign_expired (p : TokenPayload) (secret : String) (sec now : Nat)
    (h : ¬ now < sec + 86400) :
    jwtVerify (jwtSign p secret sec) secret now = none := by
  unfold jwtSign jwtVerify
  rw [if_neg (fun hc => h hc.2)]

theorem verifyToken_sign_match (p : TokenPayload) (r : Request) (secret : String)
    (sec now : Nat) (hlt : now < sec + 86400)
    (hfp : p.deviceFingerprint = generateDeviceFingerprint r) :
    verifyToken (jwtSign p secret sec) r secret now = some p := by
  unfold verifyToken
  rw [jwtVerify_sign _ _ _ _ hlt]
  exact if_neg (fun hno => hno hfp)

theorem verifyToken_sign_mismatch (p : TokenPayload) (r : Request) (secret : String)
    (sec now : Nat) (hfp : p.deviceFingerprint ≠ generateDeviceFingerprint r) :
    verifyToken (jwtSign p secret sec) r secret now = none := by
  unfold verifyToken
  by_cases hlt : now < sec + 86400
  · rw [jwtVerify_sign _ _ _ _ hlt]
    exact if_pos hfp
  · rw [jwtVerify_sign_expired _ _ _ _ hlt]

theorem generateDeviceFingerprint_inj (r1 r2 : Request)
    (h : generateDeviceFingerprint r1 = generateDeviceFingerprint r2) :
    fpOfReq r1 = fpOfReq r2 := by
  have hu : utf8Encode (fpJson (fpOfReq r1)) = utf8Encode (fpJson (fpOfReq r2)) := by
    have d1 := base64Decode_encode (utf8Encode (fpJson (fpOfReq r1)))
      (utf8Encode_lt _)
    have d2 := base64Decode_encode (utf8Encode (fpJson (fpOfReq r2)))
      (utf8Encode_lt _)
    unfold generateDeviceFingerprint at h
    rw [h] at d1
    rw [d2] at d1
    exact (Option.some.inj d1).symm
  have hj : fpJson (fpOfReq r1) = fpJson (fpOfReq r2) := by
    have d1 := utf8Decode_encode (fpJson (fpOfReq r1))
    rw [hu, utf8Decode_encode] at d1
    exact (Option.some.inj d1).symm
  have d1 := parseFp_fpJson (fpOfReq r1)
  rw [hj, parseFp_fpJson] at d1
  exact (Option.some.inj d1).symm

/-- C7: `verifyToken` accepts a token — returning its payload — exactly when
its signature verifies under the server secret, it is unexpired, and its
embedded device fingerprint equals the fingerprint recomputed from the
presenting request; in particular a token issued for a request verifies
when presented with the identical request context within the 24-hour
window, and is rejected whenever the presenting request's (defaulted)
user-agent header differs, at any time. -/
theorem claim_C7 :
    (∀ (t : SignedToken) (r : Request) (secret : String) (now : Nat)
        (p : TokenPayload),
      verifyToken t r secret now = some p ↔
        (t.sig = (secret, t.payload, t.exp) ∧ now < t.exp ∧
         t.payload.deviceFingerprint = generateDeviceFingerprint r ∧
         p = t.payload)) ∧
    (∀ (a : Bool) (r : Request) (secret : String) (ms sec now : Nat),
      now < sec + 86400 →
      verifyToken (generateToken a r secret ms sec) r secret now =
        some ⟨a, generateDeviceFingerprint r, ms, reqIp r⟩) ∧
    (∀ (a : Bool) (r1 r2 : Request) (secret : String) (ms sec now : Nat),
      headerD r1.userAgent ≠ headerD r2.userAgent →
      verifyToken (generateToken a r1 secret ms sec) r2 secret now = none) := by
  refine ⟨?_, ?_, ?_⟩
  · intro t r secret now p
    unfold verifyToken jwtVerify
    by_cases hs : t.sig = (secret, t.payload, t.exp) ∧ now < t.exp
    · rw [if_pos hs]
      change (if t.payload.deviceFingerprint ≠ generateDeviceFingerprint r then none
        else some t.payload) = some p ↔ _
      by_cases hf : t.payload.deviceFingerprint = generateDeviceFingerprint r
      · rw [if_neg (fun hno => hno hf)]
        constructor
        · intro hsp
          exact ⟨hs.1, hs.2, hf, (Option.some.inj hsp).symm⟩
        · rintro ⟨-, -, -, rfl⟩
          rfl
      · rw [if_pos hf]
        constructor
        · intro hno
          exact Option.noConfusion hno
        · rintro ⟨-, -, hc, -⟩
          exact absurd hc hf
    · rw [if_neg hs]
      constructor
      · intro hno
        exact Option.noConfusion hno
      · rintro ⟨ha, hb, -, -⟩
        exact absurd ⟨ha, hb⟩ hs
  · intro a r secret ms sec now hlt
    unfold generateToken
    exact verifyToken_sign_match _ r secret sec now hlt (by with_reducible rfl)
  · intro a r1 r2 secret ms sec now hne
    have hng : generateDeviceFingerprint r1 ≠ generateDeviceFingerprint r2 :=
      fun he => hne (congrArg FpInput.userAgent
        (generateDeviceFingerprint_inj r1 r2 he))
    unfold generateToken
    exact verifyToken_sign_mismatch _ r2 secret sec now (by with_reducible exact hng)

/-- C7 witness: a token issued for `testRequest` verifies on replay of the
same request context within the window, and fails against `testRequest2`,
which differs only in its user-agent header. -/
theorem claim_C7_witness :
    ((0 : Nat) < 10 + 86400 ∧
      verifyToken (generateToken true testRequest "secret" 5 10) testRequest
          "secret" 0 =
        some ⟨true, generateDeviceFingerprint testRequest, 5, reqIp testRequest⟩) ∧
    (headerD testRequest.userAgent ≠ headerD testRequest2.userAgent ∧
      verifyToken (generateToken true testRequest "secret" 5 10) testRequest2
        "secret" 0 = none) :=
  ⟨⟨by decide, claim_C7.2.1 true testRequest "secret" 5 10 0 (by decide)⟩,
   ⟨by decide, claim_C7.2.2 true testRequest testRequest2 "secret" 5 10 0 (by decide)⟩⟩

end SVP
